import Mathlib

/-!
Verification of the rs-sdk protocol core against its specification.

The development shallowly embeds the parts of the repository the claims
touch: the engine websocket front-end (`src/engine/src/web.ts`), the
combat arc's food helper
(`src/bot_arcs/david_1/arcs/lumbridge-combat/script.ts`), the multi-page
dialog pattern documented in `src/system-architecture.md`, and — for the
protocol core whose implementation files (`agent/sync.ts`, `agent/sdk.ts`,
`agent/sdk-porcelain.ts`, the arc runner) are not part of the source
tree — models built from the specification's component descriptions.
-/

/-! ## Case-insensitive substring matching

The scripts match item names and option texts with case-insensitive
regular expressions such as `/shrimp|bread|cooked|meat/i` and `/eat/i`;
each alternative is a plain literal, so the regex test is exactly a
case-insensitive substring test. -/

/-- `leadsWith n h` is true when the char list `n` occurs at the head of `h`. -/
def leadsWith : List Char → List Char → Bool
  | [], _ => true
  | _ :: _, [] => false
  | a :: as, b :: bs => a == b && leadsWith as bs

/-- `containsSub n h` is true when `n` occurs contiguously somewhere in `h`. -/
def containsSub : List Char → List Char → Bool
  | n, [] => n.isEmpty
  | n, h :: t => leadsWith n (h :: t) || containsSub n t

/-- Lower-cased character list of a string. -/
def lowerChars (s : String) : List Char := s.toList.map Char.toLower

/-- Case-insensitive substring test: `pat` occurs in `hay` ignoring case.
This is the semantics of testing a literal-alternative `i`-flagged regex. -/
def containsCI (hay pat : String) : Bool := containsSub (lowerChars pat) (lowerChars hay)

/-! ## Inventory items and the combat arc's `eatFood` helper

From `src/bot_arcs/david_1/arcs/lumbridge-combat/script.ts`. An inventory
item exposes its name, slot, and `optionsWithIndex` (text plus op index),
matching the SDK's `InventoryItem` shape used by the script. -/

/-- One interaction option on an inventory item: its text and its op index. -/
structure OptWithIndex where
  text : String
  opIndex : Nat
deriving DecidableEq

/-- An inventory item as the combat script reads it. -/
structure InvItem where
  name : String
  slot : Nat
  optionsWithIndex : List OptWithIndex
deriving DecidableEq

/-- The food test `/shrimp|bread|cooked|meat/i.test(i.name)` from `eatFood`. -/
def isFood (name : String) : Bool :=
  containsCI name "shrimp" || containsCI name "bread" ||
  containsCI name "cooked" || containsCI name "meat"

/-- The option test `/eat/i.test(o.text)` from `eatFood`. -/
def hasEatOpt (o : OptWithIndex) : Bool := containsCI o.text "eat"

/-- `eatFood` from the combat arc: find the first inventory item matching the
food pattern; if none, return without acting. Then find an option on it
matching `/eat/i`; if none, return without acting. Otherwise issue
`sendUseItem(food.slot, eatOpt.opIndex)`. The returned value is the issued
action's `(slot, opIndex)` pair, `none` when no action is sent. -/
def eatFood (inv : List InvItem) : Option (Nat × Nat) :=
  match inv.find? (fun i => isFood i.name) with
  | none => none
  | some food =>
    match food.optionsWithIndex.find? hasEatOpt with
    | none => none
    | some o => some (food.slot, o.opIndex)

/-- `eatFood` together with the `stats.foodEaten` counter: the counter is
incremented exactly when the use-item action is issued. -/
def eatFoodStep (inv : List InvItem) (foodEaten : Nat) : Option (Nat × Nat) × Nat :=
  match eatFood inv with
  | none => (none, foodEaten)
  | some a => (some a, foodEaten + 1)

/-! ## Engine websocket front-end

From `src/engine/src/web.ts`: the `websocket.message` and `websocket.close`
handlers over the per-connection `ws.data.client` (a `WSClientSocket`). -/

/-- A player's client reference: either the live websocket or the no-op
stand-in installed on close. `NullClientSocket` itself is outside the
source tree; the spec's design note describes it as a no-op stand-in. -/
inductive ClientRef where
  | nullSocket
  | wsSocket
deriving DecidableEq

/-- The player record as far as the handlers touch it: its client reference
and its session log. -/
structure EnginePlayer where
  client : ClientRef
  sessionLog : List String
deriving DecidableEq

/-- The per-connection client: handshake `state` (-1 closed, 0 login flow,
2 ondemand), the `remaining` read budget, the buffered inbound bytes, the
terminated flag, and the bound player if any. -/
structure WSClient where
  state : Int
  remaining : Int
  buffered : List (List Nat)
  terminated : Bool
  player : Option EnginePlayer
deriving DecidableEq

/-- What the `websocket.message` handler did with a frame. -/
inductive MsgOutcome where
  | terminatedClient
  | processedWorld
  | processedOnDemand
  | noDispatch
deriving DecidableEq

/-- `websocket.close` from `web.ts`: set `client.state = -1`; if a player is
bound, append the session-log line and replace the player's client with a
`NullClientSocket`. -/
def websocketClose (c : WSClient) : WSClient :=
  let c1 : WSClient := { c with state := -1 }
  match c1.player with
  | some p =>
      { c1 with player := some { p with
          client := ClientRef.nullSocket,
          sessionLog := p.sessionLog ++ ["WS socket closed"] } }
  | none => c1

/-- `websocket.message` from `web.ts`: a client whose `state` is `-1` or whose
`remaining` budget is non-positive is terminated before the frame is
buffered or dispatched; otherwise the frame is buffered and dispatched by
handshake state (`0` to the world login flow, `2` to ondemand when enabled,
else terminated). -/
def websocketMessage (ondemandEnabled : Bool) (c : WSClient) (m : List Nat) :
    WSClient × MsgOutcome :=
  if c.state = -1 ∨ c.remaining ≤ 0 then
    ({ c with terminated := true }, MsgOutcome.terminatedClient)
  else
    let cb : WSClient := { c with buffered := c.buffered ++ [m] }
    if cb.state = 0 then (cb, MsgOutcome.processedWorld)
    else if cb.state = 2 then
      if ondemandEnabled then (cb, MsgOutcome.processedOnDemand)
      else ({ cb with terminated := true }, MsgOutcome.terminatedClient)
    else (cb, MsgOutcome.noDispatch)

/-- Modelled from the spec: operations sent through a player's client
reference. The live socket emits the payload; the `NullClientSocket`
stand-in (not in the source tree; spec design note, "no-op stand-in on
disconnect") emits nothing, keeping player operations total. -/
def ClientRef.sendBytes : ClientRef → List Nat → List Nat
  | ClientRef.nullSocket, _ => []
  | ClientRef.wsSocket, out => out

/-! ## World state, error taxonomy

The protocol core's implementation files (`agent/sync.ts`, `agent/sdk.ts`,
`agent/sdk-porcelain.ts`, `arc-runner.ts`) are not part of the source
tree; the following definitions model them from the specification. -/

/-- Modelled from the spec: a `WorldState` snapshot restricted to the fields
the claims exercise — the stamping tick, the inventory (item names), and
the blocking-dialog flag (`agent/sdk.ts` and `agent/types.ts` are missing
from the tree). -/
structure WorldState where
  tick : Nat
  inventory : List String
  dialogOpen : Bool
deriving DecidableEq

/-- Modelled from the spec: the error taxonomy of section 7. -/
inductive ErrCode where
  | NOT_CONNECTED
  | TIMEOUT
  | CONNECT_ERROR
  | PROTOCOL_ERROR
  | STALL
  | ACTION_REJECTED
deriving DecidableEq

/-! ## Condition-Wait Engine

Modelled from the spec, section 4.3 (`await(predicate, timeoutMs)` in the
missing `agent/sdk.ts`). -/

/-- Outcome of one wait: resolution with the satisfying snapshot and its
arrival time, or rejection by the racing deadline timer. -/
inductive WaitOutcome where
  | resolved (t : Nat) (s : WorldState)
  | timedOut
deriving DecidableEq

/-- Modelled from the spec: the life of one registered Waiter over a
time-stamped snapshot sequence (`agent/sdk.ts` is missing from the tree).
Each arriving snapshot is evaluated once, in order; the deadline timer
races the snapshots, so a snapshot arriving after the deadline never
resolves the wait, and exhaustion of the sequence leaves the timer to
fire. -/
def runWaiter (pred : WorldState → Bool) (deadline : Nat) :
    List (Nat × WorldState) → WaitOutcome
  | [] => WaitOutcome.timedOut
  | (t, s) :: rest =>
    if deadline < t then WaitOutcome.timedOut
    else if pred s then WaitOutcome.resolved t s
    else runWaiter pred deadline rest

/-- A pending Waiter held by a Protocol Session: its id, deadline, and
predicate. -/
structure WaitEntry where
  wid : Nat
  deadline : Nat
  pred : WorldState → Bool

/-- Modelled from the spec: the Protocol Session state the wait engine
touches — the cached snapshot and the FIFO list of pending Waiters
(`agent/sdk.ts` is missing from the tree). -/
structure ProtoSession where
  cached : Option WorldState
  waiters : List WaitEntry

/-- Outcome of registering a wait: immediate resolution against the cached
snapshot, or a pending Waiter appended to the FIFO. -/
inductive RegisterOutcome where
  | immediate (s : WorldState)
  | pending
deriving DecidableEq

/-- Modelled from the spec, section 4.3 step 1: on registration the
predicate is evaluated immediately against the current cached snapshot;
only if that fails (or no snapshot is cached) is a pending Waiter appended
(`agent/sdk.ts` is missing from the tree). -/
def registerWait (sess : ProtoSession) (wid : Nat) (pred : WorldState → Bool)
    (deadline : Nat) : ProtoSession × RegisterOutcome :=
  match sess.cached with
  | some s =>
    if pred s then (sess, RegisterOutcome.immediate s)
    else ({ sess with waiters := sess.waiters ++ [⟨wid, deadline, pred⟩] },
          RegisterOutcome.pending)
  | none =>
    ({ sess with waiters := sess.waiters ++ [⟨wid, deadline, pred⟩] },
     RegisterOutcome.pending)

/-- Modelled from the spec: the deadline sweep — every pending Waiter whose
deadline has passed is rejected with `TIMEOUT` and removed from the active
set; the cached snapshot is not consulted or modified (`agent/sdk.ts` is
missing from the tree). -/
def expireTimeouts (now : Nat) (sess : ProtoSession) :
    ProtoSession × List (Nat × ErrCode) :=
  ({ sess with waiters := sess.waiters.filter (fun w => now ≤ w.deadline) },
   (sess.waiters.filter (fun w => w.deadline < now)).map
     (fun w => (w.wid, ErrCode.TIMEOUT)))

/-! ## Router

Modelled from the spec, sections 4.1 and 7 (`agent/sync.ts` is missing from
the tree). State is kept in association lists keyed by bot identity. -/

/-- The payload of an `sdk_action_result` frame. -/
structure ActionRes where
  success : Bool
  message : String
  tick : Nat
deriving DecidableEq

/-- One pending-action entry: correlation id, target identity, and the
originating controller connection. -/
structure PendingEntry where
  aid : Nat
  ident : String
  ctrl : Nat
deriving DecidableEq

/-- Modelled from the spec: the Router's routing tables — identity to active
Peer Bridge connection, identity to subscribed controllers, the pending
action map, pending Waiter ownership per identity, and the cached snapshot
per identity (`agent/sync.ts` is missing from the tree). -/
structure RouterState where
  peers : List (String × Nat)
  subs : List (String × List Nat)
  pending : List PendingEntry
  waiters : List (String × Nat)
  cached : List (String × WorldState)

/-- Observable effects the Router emits while processing a message. -/
inductive Effect where
  | deliverResult (ctrl : Nat) (aid : Nat) (res : ActionRes)
  | failPending (ctrl : Nat) (aid : Nat) (err : ErrCode)
  | failWaiter (wid : Nat) (err : ErrCode)
  | notifyOffline (ctrl : Nat) (ident : String)
  | forwardAction (peerConn : Nat) (aid : Nat)
  | pushState (ctrl : Nat) (ident : String) (snap : WorldState)
  | logDrop (conn : Nat)
deriving DecidableEq

/-- Look up and delete the pending entry with the given correlation id:
returns the first matching entry (if any) and the map with it removed. -/
def consumePending (aid : Nat) : List PendingEntry → Option PendingEntry × List PendingEntry
  | [] => (none, [])
  | e :: t =>
    if e.aid = aid then (some e, t)
    else
      let r := consumePending aid t
      (r.1, e :: r.2)

/-- Modelled from the spec, section 4.1: on a result message, look up the
pending entry by id, forward the result to the originating controller and
delete the entry; an id matching no pending entry is dropped, producing no
effect and no error (`agent/sync.ts` is missing from the tree). -/
def handleResult (r : RouterState) (aid : Nat) (res : ActionRes) :
    RouterState × List Effect :=
  match consumePending aid r.pending with
  | (some e, rest) =>
    ({ r with pending := rest }, [Effect.deliverResult e.ctrl aid res])
  | (none, _) => (r, [])

/-- Process a wire-interleaved sequence of result messages, accumulating the
emitted effects. -/
def processResults (r : RouterState) : List (Nat × ActionRes) → RouterState × List Effect
  | [] => (r, [])
  | (aid, res) :: rest =>
    let step := handleResult r aid res
    let tail := processResults step.1 rest
    (tail.1, step.2 ++ tail.2)

/-- Number of `deliverResult` effects for correlation id `a` in an effect
list. -/
def delCount (a : Nat) (effs : List Effect) : Nat :=
  effs.countP (fun eff =>
    match eff with
    | Effect.deliverResult _ a' _ => a' == a
    | _ => false)

/-- The pending entries of one identity. -/
def pendingOf (r : RouterState) (j : String) : List PendingEntry :=
  r.pending.filter (fun e => e.ident == j)

/-- The pending Waiters of one identity. -/
def waitersOf (r : RouterState) (j : String) : List (String × Nat) :=
  r.waiters.filter (fun w => w.1 == j)

/-- The active Peer Bridge connection of one identity, if any. -/
def peerOf (r : RouterState) (j : String) : Option Nat :=
  (r.peers.find? (fun p => p.1 == j)).map Prod.snd

/-- The subscribed controllers of one identity. -/
def subsOf (r : RouterState) (j : String) : List Nat :=
  ((r.subs.find? (fun s => s.1 == j)).map Prod.snd).getD []

/-- The cached snapshot of one identity, if any. -/
def cachedOf (r : RouterState) (j : String) : Option WorldState :=
  (r.cached.find? (fun c => c.1 == j)).map Prod.snd

/-- Modelled from the spec, sections 4.1 and 7: on Peer Bridge disconnect,
mark the identity offline, fail every pending action for that identity
with `NOT_CONNECTED`, abort that identity's pending Waiters likewise, and
notify the identity's subscribers of the offline transition
(`agent/sync.ts` is missing from the tree). -/
def handleDisconnect (r : RouterState) (ident : String) :
    RouterState × List Effect :=
  ({ r with
      peers := r.peers.filter (fun p => p.1 != ident),
      pending := r.pending.filter (fun e => e.ident != ident),
      waiters := r.waiters.filter (fun w => w.1 != ident) },
   (r.pending.filter (fun e => e.ident == ident)).map
       (fun e => Effect.failPending e.ctrl e.aid ErrCode.NOT_CONNECTED)
     ++ (r.waiters.filter (fun w => w.1 == ident)).map
       (fun w => Effect.failWaiter w.2 ErrCode.NOT_CONNECTED)
     ++ (subsOf r ident).map (fun c => Effect.notifyOffline c ident))

/-! ## Wire frames and malformed-message handling

Modelled from the spec, sections 6 and 7 (`agent/sync.ts` is missing from
the tree). A raw frame is a bag of optional fields; parsing either yields
one of the three message kinds or fails. -/

/-- A decoded wire message: `sdk_state`, `sdk_action`, or
`sdk_action_result`. -/
inductive WireMsg where
  | stateMsg (tick : Nat) (snap : WorldState)
  | actionMsg (ident : String) (aid : Nat) (tick : Nat) (method : String)
  | resultMsg (aid : Nat) (res : ActionRes)
deriving DecidableEq

/-- A raw inbound frame before validation: a kind tag and optional fields. -/
structure Frame where
  kind : String
  ident : Option String
  aid : Option Nat
  tick : Option Nat
  success : Option Bool
  message : Option String
  method : Option String
  snap : Option WorldState
deriving DecidableEq

/-- Modelled from the spec, section 6: validate a raw frame into a wire
message; any unknown kind or missing required field is malformed
(`agent/sync.ts` is missing from the tree). -/
def parseWire (f : Frame) : Option WireMsg :=
  if f.kind = "sdk_state" then
    match f.tick, f.snap with
    | some t, some sn => some (WireMsg.stateMsg t sn)
    | _, _ => none
  else if f.kind = "sdk_action" then
    match f.ident, f.aid, f.tick, f.method with
    | some i, some a, some t, some m => some (WireMsg.actionMsg i a t m)
    | _, _, _, _ => none
  else if f.kind = "sdk_action_result" then
    match f.aid, f.tick, f.success, f.message with
    | some a, some t, some s, some m =>
      some (WireMsg.resultMsg a { success := s, message := m, tick := t })
    | _, _, _, _ => none
  else none

/-- Replace (or install) the cached snapshot for one identity. -/
def setCached (ident : String) (snap : WorldState) :
    List (String × WorldState) → List (String × WorldState)
  | [] => [(ident, snap)]
  | (k, v) :: t =>
    if k = ident then (k, snap) :: t else (k, v) :: setCached ident snap t

/-- Modelled from the spec, section 4.1: dispatch one decoded message — a
state message updates the cache and is broadcast to the identity's
subscribers, an action message is forwarded to the identity's Peer Bridge
(or failed with `NOT_CONNECTED`), and a result message is correlated by id
(`agent/sync.ts` is missing from the tree). -/
def dispatchMsg (r : RouterState) (conn : Nat) : WireMsg → RouterState × List Effect
  | WireMsg.stateMsg _ snap =>
    match r.peers.find? (fun p => p.2 == conn) with
    | some p =>
      ({ r with cached := setCached p.1 snap r.cached },
       (subsOf r p.1).map (fun c => Effect.pushState c p.1 snap))
    | none => (r, [Effect.logDrop conn])
  | WireMsg.actionMsg ident aid _ _ =>
    match peerOf r ident with
    | some peerConn =>
      ({ r with pending := r.pending ++ [⟨aid, ident, conn⟩] },
       [Effect.forwardAction peerConn aid])
    | none => (r, [Effect.failPending conn aid ErrCode.NOT_CONNECTED])
  | WireMsg.resultMsg aid res => handleResult r aid res

/-- Modelled from the spec, sections 4.1 and 7: handle one raw frame from a
connection — a frame that fails validation is logged and dropped, leaving
every routing table untouched; a valid frame is dispatched
(`agent/sync.ts` is missing from the tree). -/
def handleFrame (r : RouterState) (conn : Nat) (f : Frame) :
    RouterState × List Effect :=
  match parseWire f with
  | none => (r, [Effect.logDrop conn])
  | some m => dispatchMsg r conn m

/-! ## Liveness Watchdog

Modelled from the spec, section 4.5 (`arc-runner.ts` is missing from the
tree). The watchdog polls on a fixed evaluation interval, comparing the
wall clock against the last progress signal plus the stall timeout. -/

/-- Modelled from the spec: one watchdog poll — raise `STALL` exactly when
the interval since the last progress signal exceeds the stall timeout
(`arc-runner.ts` is missing from the tree). -/
def watchdogStallCheck (stallTimeout lastSignal now : Nat) : Option ErrCode :=
  if lastSignal + stallTimeout < now then some ErrCode.STALL else none

/-- Modelled from the spec: the first scheduled poll time strictly past
`target`, for polls at `start`, `start + interval`, `start + 2·interval`,
… (`arc-runner.ts` is missing from the tree). -/
def firstCheckPast (start interval target : Nat) : Nat :=
  if target < start then start
  else start + interval * ((target - start) / interval + 1)

/-! ## Multi-page dialog auto-dismiss

From the Multi-Page Dialog pattern in `src/system-architecture.md`: while
waiting for success, click the dialog away only when at least three ticks
have passed since the last auto-click (`state.tick - lastClick >= 3` over
non-negative tick values, with `lastClick` starting at 0). -/

/-- One evaluated view of the state during the wait: its tick, whether a
dialog is open, and whether the wait's success condition holds. -/
structure DialogView where
  tick : Nat
  dialogOpen : Bool
  done : Bool
deriving DecidableEq

/-- The pattern's click loop: fold over the evaluated views carrying
`lastClick`, emitting the tick of every auto-dismiss click issued. The
guard `lastClick + 3 ≤ v.tick` is `v.tick - lastClick ≥ 3` over integers,
as both sides are non-negative. -/
def multiPageGo (lastClick : Nat) : List DialogView → List Nat
  | [] => []
  | v :: rest =>
    if v.done then []
    else if v.dialogOpen ∧ lastClick + 3 ≤ v.tick then
      v.tick :: multiPageGo v.tick rest
    else multiPageGo lastClick rest

/-- The ticks at which the multi-page dialog pattern issues auto-dismiss
clicks, with `lastClick` initialised to 0. -/
def dialogDismissTicks (views : List DialogView) : List Nat :=
  multiPageGo 0 views

/-! ## Concrete instances used by the closed witnesses -/

/-- A concrete inventory: a sword (no food), then bread with an `Eat` option. -/
def demoInv : List InvItem :=
  [⟨"Bronze sword", 0, [⟨"Wield", 1⟩]⟩,
   ⟨"Bread", 1, [⟨"Eat", 0⟩, ⟨"Drop", 4⟩]⟩]

/-- A concrete websocket client in the login flow with a bound player. -/
def demoClient : WSClient := ⟨0, 5000, [], false, some ⟨ClientRef.wsSocket, []⟩⟩

/-- The Scenario A predicate: the inventory contains "X". -/
def predX : WorldState → Bool := fun s => s.inventory.contains "X"

/-- Scenario A snapshots: no "X" at t=100 and t=2000, "X" present at t=4000. -/
def snapNoX1 : WorldState := ⟨1, [], false⟩

/-- Second Scenario A snapshot without "X". -/
def snapNoX2 : WorldState := ⟨2, ["Bronze axe"], false⟩

/-- The Scenario A snapshot carrying "X". -/
def snapX : WorldState := ⟨4, ["X"], false⟩

/-- A session whose cached snapshot already satisfies `predX`. -/
def sessHot : ProtoSession := ⟨some snapX, []⟩

/-- A pending Waiter with deadline 10. -/
def wEntry : WaitEntry := ⟨1, 10, predX⟩

/-- A session holding exactly `wEntry`. -/
def sessTO : ProtoSession := ⟨some snapNoX1, [wEntry]⟩

/-- A sample action result payload. -/
def resOk : ActionRes := ⟨true, "ok", 40⟩

/-- An interleaved result sequence: beta's result, alpha's result, a
duplicate of beta's id, and an unknown id. -/
def demoResults : List (Nat × ActionRes) :=
  [(2, ⟨true, "ok", 40⟩), (1, ⟨true, "ok", 41⟩), (2, ⟨true, "dup", 42⟩),
   (99, ⟨true, "stray", 43⟩)]

/-- A Router with two identities, one pending action each, both online. -/
def demoRouter : RouterState :=
  { peers := [("alpha", 100), ("beta", 200)],
    subs := [("alpha", [10]), ("beta", [20])],
    pending := [⟨1, "alpha", 10⟩, ⟨2, "beta", 20⟩],
    waiters := [("alpha", 71), ("beta", 72)],
    cached := [("alpha", snapNoX1), ("beta", snapNoX2)] }

/-- A frame with an unknown kind and no fields: malformed. -/
def badFrame : Frame := ⟨"garbage", none, none, none, none, none, none, none⟩

/-! ## Theorems -/

/-- Helper: every click the multi-page pattern emits is at least three ticks
past the carried `lastClick`, and consecutive emitted clicks are at least
three ticks apart. -/
theorem multiPageGo_bounds (views : List DialogView) : ∀ lc : Nat,
    (∀ x ∈ multiPageGo lc views, lc + 3 ≤ x) ∧
    List.Chain' (fun a b => a + 3 ≤ b) (multiPageGo lc views) := by
  induction views with
  | nil => intro lc; simp [multiPageGo]
  | cons v rest ih =>
    intro lc
    by_cases hd : v.done
    · simp [multiPageGo, hd]
    · by_cases hc : v.dialogOpen ∧ lc + 3 ≤ v.tick
      · have hstep : multiPageGo lc (v :: rest) = v.tick :: multiPageGo v.tick rest := by
          simp only [multiPageGo]
          rw [if_neg hd, if_pos hc]
        rw [hstep]
        refine ⟨?_, ?_⟩
        · intro x hx
          rcases List.mem_cons.mp hx with rfl | hx'
          · exact hc.2
          · have := (ih v.tick).1 x hx'
            omega
        · refine List.chain'_cons'.mpr ⟨?_, (ih v.tick).2⟩
          intro b hb
          exact (ih v.tick).1 b (List.mem_of_mem_head? hb)
      · have hstep : multiPageGo lc (v :: rest) = multiPageGo lc rest := by
          simp only [multiPageGo]
          rw [if_neg hd, if_neg hc]
        rw [hstep]
        exact ih lc

/-- C8: while a wait is outstanding, the multi-page dialog auto-dismiss
issues at most one dismiss per cooldown window — any two consecutive
auto-dismiss clicks are at least the three-tick cooldown apart, so two
dismisses are never issued within the same cooldown window. -/
theorem dialog_dismiss_cooldown (views : List DialogView) :
    List.Chain' (fun a b => a + 3 ≤ b) (dialogDismissTicks views) :=
  (multiPageGo_bounds views 0).2

/-- C9: on websocket close the client's state becomes -1 and a bound
player's client reference becomes the no-op `NullClientSocket` (so player
operations emit nothing rather than faulting); a further message for a
client whose state is -1 or whose remaining budget is non-positive
terminates that client without buffering or dispatching the frame — in
particular any message arriving after close. -/
theorem ws_close_and_budget_guard (e : Bool) (c : WSClient) (m : List Nat) :
    (websocketClose c).state = -1
  ∧ (∀ p, c.player = some p →
      ∃ q, (websocketClose c).player = some q ∧ q.client = ClientRef.nullSocket ∧
        ∀ out, q.client.sendBytes out = [])
  ∧ (c.state = -1 ∨ c.remaining ≤ 0 →
      websocketMessage e c m = ({ c with terminated := true }, MsgOutcome.terminatedClient))
  ∧ websocketMessage e (websocketClose c) m =
      ({ websocketClose c with terminated := true }, MsgOutcome.terminatedClient) := by
  have hstate : (websocketClose c).state = -1 := by
    unfold websocketClose
    cases c.player <;> rfl
  refine ⟨hstate, ?_, ?_, ?_⟩
  · intro p hp
    have hq : (websocketClose c).player =
        some { p with
          client := ClientRef.nullSocket,
          sessionLog := p.sessionLog ++ ["WS socket closed"] } := by
      unfold websocketClose
      simp only [hp]
    exact ⟨_, hq, rfl, fun _ => rfl⟩
  · intro hguard
    unfold websocketMessage
    rw [if_pos hguard]
  · unfold websocketMessage
    rw [if_pos (Or.inl hstate)]

/-- Closed witness for C9 at a concrete client with a bound player. -/
theorem ws_close_and_budget_guard_witness :
    (websocketClose demoClient).state = -1
  ∧ (∀ p, demoClient.player = some p →
      ∃ q, (websocketClose demoClient).player = some q ∧ q.client = ClientRef.nullSocket ∧
        ∀ out, q.client.sendBytes out = [])
  ∧ (demoClient.state = -1 ∨ demoClient.remaining ≤ 0 →
      websocketMessage true demoClient [7] =
        ({ demoClient with terminated := true }, MsgOutcome.terminatedClient))
  ∧ websocketMessage true (websocketClose demoClient) [7] =
      ({ websocketClose demoClient with terminated := true }, MsgOutcome.terminatedClient) :=
  ws_close_and_budget_guard true demoClient [7]

/-- C10: the combat arc's `eatFood` issues its use-item action (and bumps the
`foodEaten` counter) only against an inventory item matching the food
pattern that carries an option matching `/eat/i`; when no inventory item
matching the food pattern carries such an option, it returns without
issuing any action, and the `foodEaten` counter moves exactly when the
action is issued. -/
theorem eatFood_guarded (inv : List InvItem) (n : Nat) :
    (∀ s op, eatFood inv = some (s, op) →
      ∃ it, it ∈ inv ∧ isFood it.name = true ∧
        ∃ o, o ∈ it.optionsWithIndex ∧ hasEatOpt o = true ∧
          s = it.slot ∧ op = o.opIndex)
  ∧ ((∀ it, it ∈ inv → isFood it.name = true →
        ∀ o, o ∈ it.optionsWithIndex → hasEatOpt o = false) →
      eatFood inv = none)
  ∧ (eatFood inv = none → eatFoodStep inv n = (none, n))
  ∧ (∀ a, eatFood inv = some a → eatFoodStep inv n = (some a, n + 1)) := by
  refine ⟨?_, ?_, ?_, ?_⟩
  · intro s op h
    unfold eatFood at h
    split at h
    · cases h
    · rename_i food hf
      split at h
      · cases h
      · rename_i o ho
        injection h with h2
        injection h2 with e1 e2
        refine ⟨food, List.mem_of_find?_eq_some hf, ?_, o,
          List.mem_of_find?_eq_some ho, List.find?_some ho, e1.symm, e2.symm⟩
        simpa using List.find?_some hf
  · intro hall
    unfold eatFood
    split
    · rfl
    · rename_i food hf
      split
      · rfl
      · rename_i o ho
        exfalso
        have hfood : isFood food.name = true := by simpa using List.find?_some hf
        have hfalse := hall food (List.mem_of_find?_eq_some hf) hfood o
          (List.mem_of_find?_eq_some ho)
        have htrue := List.find?_some ho
        rw [hfalse] at htrue
        cases htrue
  · intro h
    unfold eatFoodStep
    rw [h]
  · intro a h
    unfold eatFoodStep
    rw [h]

/-- Closed witness for C10 at `demoInv`: the first food match is bread with
an `Eat` option, so the action targets slot 1 with op index 0 and the
counter steps from 5 to 6. -/
theorem eatFood_guarded_witness :
    eatFood demoInv = some (1, 0)
  ∧ (∃ it, it ∈ demoInv ∧ isFood it.name = true ∧
      ∃ o, o ∈ it.optionsWithIndex ∧ hasEatOpt o = true ∧ 1 = it.slot ∧ 0 = o.opIndex)
  ∧ eatFoodStep demoInv 5 = (some (1, 0), 6) :=
  ⟨by decide,
   (eatFood_guarded demoInv 5).1 1 0 (by decide),
   (eatFood_guarded demoInv 5).2.2.2 (1, 0) (by decide)⟩

/-- C2: spec-modelled — a Waiter resolves at the first snapshot satisfying
its predicate: for any snapshot sequence whose prefix contains only
non-satisfying snapshots arriving before the deadline, followed by a
satisfying snapshot also before the deadline, the wait resolves with
exactly that snapshot at its arrival time — never at an earlier snapshot
and, in this evaluation-cycle model, at the very cycle that processes it. -/
theorem waiter_resolves_at_first_match (pred : WorldState → Bool) (deadline t : Nat)
    (s : WorldState) (pre post : List (Nat × WorldState))
    (hpre : ∀ p ∈ pre, pred p.2 = false ∧ p.1 ≤ deadline)
    (ht : t ≤ deadline) (hs : pred s = true) :
    runWaiter pred deadline (pre ++ (t, s) :: post) = WaitOutcome.resolved t s := by
  induction pre with
  | nil =>
    rw [List.nil_append]
    unfold runWaiter
    rw [if_neg (by omega), if_pos hs]
  | cons p ps ih =>
    obtain ⟨pt, psnap⟩ := p
    obtain ⟨hp1, hp2⟩ := hpre (pt, psnap) (List.mem_cons_self _ _)
    rw [List.cons_append]
    unfold runWaiter
    rw [if_neg (by simp at hp2 ⊢; omega), if_neg (by simp at hp1 ⊢; simp [hp1])]
    exact ih (fun q hq => hpre q (List.mem_cons_of_mem _ hq))

/-- Closed witness for C2: Scenario A — snapshots at t=100 and t=2000 lack
"X", the one at t=4000 carries it; with a 5000 deadline the wait resolves
at t=4000 with that snapshot. -/
theorem waiter_resolves_at_first_match_witness :
    runWaiter predX 5000 ([(100, snapNoX1), (2000, snapNoX2)] ++ (4000, snapX) :: []) =
      WaitOutcome.resolved 4000 snapX :=
  waiter_resolves_at_first_match predX 5000 4000 snapX
    [(100, snapNoX1), (2000, snapNoX2)] [] (by decide) (by decide) (by decide)

/-- C3: spec-modelled — a Waiter whose predicate already holds on the cached
snapshot at registration resolves immediately with that snapshot, and the
session's active Waiter set is left unchanged (nothing is registered for
later snapshots to resolve). -/
theorem register_immediate_resolution (sess : ProtoSession) (s : WorldState)
    (pred : WorldState → Bool) (wid deadline : Nat)
    (hc : sess.cached = some s) (hp : pred s = true) :
    registerWait sess wid pred deadline = (sess, RegisterOutcome.immediate s) := by
  unfold registerWait
  rw [hc]
  simp [hp]

/-- Closed witness for C3: a session whose cached snapshot already carries
"X" resolves an `await`(inventory contains "X") immediately. -/
theorem register_immediate_resolution_witness :
    registerWait sessHot 7 predX 5000 = (sessHot, RegisterOutcome.immediate snapX) :=
  register_immediate_resolution sessHot snapX predX 7 5000 rfl (by decide)

/-- Helper: in the deadline sweep, a Waiter past its deadline contributes
exactly one `TIMEOUT` rejection, given distinct Waiter ids. -/
theorem timeout_rejections_count (now : Nat) (l : List WaitEntry) :
    ∀ w : WaitEntry, w ∈ l → w.deadline < now → (l.map WaitEntry.wid).Nodup →
    ((l.filter (fun e => e.deadline < now)).map (fun e => (e.wid, ErrCode.TIMEOUT))).count
      (w.wid, ErrCode.TIMEOUT) = 1 := by
  induction l with
  | nil => intro w hw _ _; cases hw
  | cons h t ih =>
    intro w hw hd hnd
    rw [List.map_cons, List.nodup_cons] at hnd
    obtain ⟨hnotin, hndt⟩ := hnd
    rcases List.mem_cons.mp hw with rfl | hwt
    · rw [List.filter_cons]
      rw [if_pos (by simpa using hd), List.map_cons, List.count_cons_self]
      have hz : ((t.filter (fun e => e.deadline < now)).map
          (fun e => (e.wid, ErrCode.TIMEOUT))).count (w.wid, ErrCode.TIMEOUT) = 0 := by
        apply List.count_eq_zero.mpr
        intro hmem
        obtain ⟨e, he, heq⟩ := List.mem_map.mp hmem
        have het : e ∈ t := List.mem_of_mem_filter he
        apply hnotin
        have hwid : e.wid = w.wid := ((Prod.mk.injEq _ _ _ _).mp heq).1
        exact hwid ▸ List.mem_map_of_mem WaitEntry.wid het
      rw [hz]
    · by_cases hh : h.deadline < now
      · rw [List.filter_cons, if_pos (by simpa using hh), List.map_cons,
          List.count_cons_of_ne ?_]
        · exact ih w hwt hd hndt
        · intro heq
          have hwid : w.wid = h.wid := ((Prod.mk.injEq _ _ _ _).mp heq).1
          exact hnotin (hwid ▸ List.mem_map_of_mem WaitEntry.wid hwt)
      · rw [List.filter_cons, if_neg (by simpa using hh)]
        exact ih w hwt hd hndt

/-- C4: spec-modelled — a Waiter past its deadline is rejected with
`TIMEOUT` exactly once by the deadline sweep, is removed from the active
set at that moment (no entry with its id survives), and the session's
cached state is left untouched by the timeout. -/
theorem waiter_timeout_exactly_once (sess : ProtoSession) (now : Nat) (w : WaitEntry)
    (hw : w ∈ sess.waiters) (hd : w.deadline < now)
    (hnd : (sess.waiters.map WaitEntry.wid).Nodup) :
    ((expireTimeouts now sess).2.count (w.wid, ErrCode.TIMEOUT) = 1)
  ∧ (∀ w', w' ∈ (expireTimeouts now sess).1.waiters → w'.wid ≠ w.wid)
  ∧ (expireTimeouts now sess).1.cached = sess.cached := by
  refine ⟨timeout_rejections_count now sess.waiters w hw hd hnd, ?_, rfl⟩
  intro w' hw' heq
  have hmem : w' ∈ sess.waiters := List.mem_of_mem_filter hw'
  have hkeep : now ≤ w'.deadline := by simpa using List.of_mem_filter hw'
  have hww : w' = w := List.inj_on_of_nodup_map hnd hmem hw heq
  subst hww
  omega

/-- Closed witness for C4: the session holding exactly the deadline-10
Waiter, swept at time 100. -/
theorem waiter_timeout_exactly_once_witness :
    ((expireTimeouts 100 sessTO).2.count (1, ErrCode.TIMEOUT) = 1)
  ∧ (∀ w', w' ∈ (expireTimeouts 100 sessTO).1.waiters → w'.wid ≠ 1)
  ∧ (expireTimeouts 100 sessTO).1.cached = some snapNoX1 :=
  waiter_timeout_exactly_once sessTO 100 wEntry (by simp [sessTO])
    (by norm_num [wEntry]) (by simp [sessTO])

/-- Helper: the pending map left by a lookup-and-delete is a sublist of the
original. -/
theorem consumePending_sublist (aid : Nat) :
    ∀ l : List PendingEntry, List.Sublist (consumePending aid l).2 l := by
  intro l
  induction l with
  | nil => exact List.Sublist.refl _
  | cons e t ih =>
    unfold consumePending
    by_cases h : e.aid = aid
    · rw [if_pos h]
      exact List.sublist_cons_self e t
    · rw [if_neg h]
      exact ih.cons₂ e

/-- Helper: a successful lookup returns an entry of the map carrying the
looked-up id. -/
theorem consumePending_found (aid : Nat) :
    ∀ (l : List PendingEntry) (e : PendingEntry) (rest : List PendingEntry),
    consumePending aid l = (some e, rest) → e ∈ l ∧ e.aid = aid := by
  intro l
  induction l with
  | nil => intro e rest h; cases h
  | cons f t ih =>
    intro e rest h
    unfold consumePending at h
    by_cases hf : f.aid = aid
    · rw [if_pos hf] at h
      injection h with h1 h2
      injection h1 with h1'
      subst h1'
      exact ⟨List.mem_cons_self f t, hf⟩
    · rw [if_neg hf] at h
      have h1 : (consumePending aid t).1 = some e := congrArg Prod.fst h
      rcases hr : consumePending aid t with ⟨o, rest'⟩
      rw [hr] at h1
      obtain ⟨hmem, hid⟩ := ih e rest' (by rw [hr]; simp only [hr] at h1; rw [h1])
      exact ⟨List.mem_cons_of_mem f hmem, hid⟩

/-- Helper: when no entry carries the id, the lookup leaves the map intact
and finds nothing. -/
theorem consumePending_not_found (aid : Nat) :
    ∀ l : List PendingEntry, (∀ e ∈ l, e.aid ≠ aid) →
    consumePending aid l = (none, l) := by
  intro l
  induction l with
  | nil => intro _; rfl
  | cons f t ih =>
    intro hall
    unfold consumePending
    rw [if_neg (hall f (List.mem_cons_self f t))]
    rw [ih (fun e he => hall e (List.mem_cons_of_mem f he))]

/-- Helper: deleting the found entry removes exactly one entry carrying the
consumed id. -/
theorem consumePending_countP (aid : Nat) :
    ∀ (l : List PendingEntry) (e : PendingEntry) (rest : List PendingEntry),
    consumePending aid l = (some e, rest) →
    rest.countP (fun x => x.aid == aid) + 1 = l.countP (fun x => x.aid == aid) := by
  intro l
  induction l with
  | nil => intro e rest h; cases h
  | cons f t ih =>
    intro e rest h
    unfold consumePending at h
    by_cases hf : f.aid = aid
    · rw [if_pos hf] at h
      injection h with h1 h2
      subst h2
      rw [List.countP_cons_of_pos _ _ (by simpa using hf)]
    · rw [if_neg hf] at h
      rcases hr : consumePending aid t with ⟨o, rest'⟩
      rw [hr] at h
      injection h with h1 h2
      subst h2
      rw [List.countP_cons_of_neg _ _ (by simpa using hf),
        List.countP_cons_of_neg _ _ (by simpa using hf)]
      have h1' : o = some e := by simpa using h1
      exact ih e rest' (by rw [hr, h1'])

/-- Helper: with pairwise-distinct correlation ids, at most one pending
entry carries any given id. -/
theorem nodup_countP_le_one (a : Nat) :
    ∀ l : List PendingEntry, (l.map PendingEntry.aid).Nodup →
    l.countP (fun x => x.aid == a) ≤ 1 := by
  intro l
  induction l with
  | nil => intro _; simp
  | cons f t ih =>
    intro hnd
    rw [List.map_cons, List.nodup_cons] at hnd
    obtain ⟨hnotin, hndt⟩ := hnd
    by_cases hf : f.aid = a
    · rw [List.countP_cons_of_pos _ _ (by simpa using hf)]
      have hz : t.countP (fun x => x.aid == a) = 0 := by
        apply List.countP_eq_zero.mpr
        intro x hx hxa
        apply hnotin
        have : x.aid = a := by simpa using hxa
        rw [← hf, ← this] at *
        exact List.mem_map_of_mem PendingEntry.aid hx
      omega
    · rw [List.countP_cons_of_neg _ _ (by simpa using hf)]
      exact ih hndt

/-- Helper: one unfolding step of result processing. -/
theorem processResults_cons (r : RouterState) (aid : Nat) (res : ActionRes)
    (rest : List (Nat × ActionRes)) :
    processResults r ((aid, res) :: rest) =
      ((processResults (handleResult r aid res).1 rest).1,
       (handleResult r aid res).2 ++ (processResults (handleResult r aid res).1 rest).2) :=
  rfl

/-- Helper: a result whose id is pending is delivered to the recorded
controller and the entry is deleted. -/
theorem handleResult_found (r : RouterState) (aid : Nat) (res : ActionRes)
    (e : PendingEntry) (rest2 : List PendingEntry)
    (hc : consumePending aid r.pending = (some e, rest2)) :
    handleResult r aid res =
      ({ r with pending := rest2 }, [Effect.deliverResult e.ctrl aid res]) := by
  unfold handleResult
  rw [hc]

/-- Helper: a result whose id is not pending is dropped without effect. -/
theorem handleResult_miss (r : RouterState) (aid : Nat) (res : ActionRes)
    (rest2 : List PendingEntry)
    (hc : consumePending aid r.pending = (none, rest2)) :
    handleResult r aid res = (r, []) := by
  unfold handleResult
  rw [hc]

/-- Helper: every delivery produced over an interleaved result sequence goes
to the controller recorded for that id in the initial pending map. -/
theorem processResults_deliver_sound :
    ∀ (rs : List (Nat × ActionRes)) (r : RouterState) (c a : Nat) (res : ActionRes),
    Effect.deliverResult c a res ∈ (processResults r rs).2 →
    ∃ e, e ∈ r.pending ∧ e.aid = a ∧ e.ctrl = c := by
  intro rs
  induction rs with
  | nil => intro r c a res h; simp [processResults] at h
  | cons p rest ih =>
    intro r c a res h
    obtain ⟨aid, res'⟩ := p
    rw [processResults_cons] at h
    rcases hc : consumePending aid r.pending with ⟨o, rest2⟩
    cases o with
    | none =>
      rw [handleResult_miss r aid res' rest2 hc] at h
      simp only [List.nil_append] at h
      exact ih r c a res h
    | some e =>
      rw [handleResult_found r aid res' e rest2 hc] at h
      rcases List.mem_append.mp h with h1 | h2
      · rw [List.mem_singleton] at h1
        injection h1 with hc' ha' hres'
        obtain ⟨hmem, hid⟩ := consumePending_found aid r.pending e rest2 hc
        refine ⟨e, hmem, ?_, hc'.symm⟩
        rw [hid, ha']
      · obtain ⟨e2, he2, hid2, hctl2⟩ := ih { r with pending := rest2 } c a res h2
        have hs := consumePending_sublist aid r.pending
        rw [hc] at hs
        exact ⟨e2, hs.mem (by simpa using he2), hid2, hctl2⟩

/-- Helper: result processing emits only `deliverResult` effects — unknown
and duplicate ids are dropped silently, never surfaced as errors. -/
theorem processResults_effects_shape :
    ∀ (rs : List (Nat × ActionRes)) (r : RouterState),
    ∀ eff ∈ (processResults r rs).2, ∃ c a res, eff = Effect.deliverResult c a res := by
  intro rs
  induction rs with
  | nil => intro r eff h; simp [processResults] at h
  | cons p rest ih =>
    intro r eff h
    obtain ⟨aid, res'⟩ := p
    rw [processResults_cons] at h
    rcases hc : consumePending aid r.pending with ⟨o, rest2⟩
    cases o with
    | none =>
      rw [handleResult_miss r aid res' rest2 hc] at h
      simp only [List.nil_append] at h
      exact ih r eff h
    | some e =>
      rw [handleResult_found r aid res' e rest2 hc] at h
      rcases List.mem_append.mp h with h1 | h2
      · rw [List.mem_singleton] at h1
        exact ⟨e.ctrl, aid, res', h1⟩
      · exact ih _ eff h2

/-- Helper: over any interleaved result sequence, the number of deliveries
for a given id never exceeds the number of pending entries carrying it. -/
theorem processResults_delCount :
    ∀ (rs : List (Nat × ActionRes)) (r : RouterState) (a : Nat),
    delCount a (processResults r rs).2 ≤ r.pending.countP (fun x => x.aid == a) := by
  intro rs
  induction rs with
  | nil => intro r a; simp [processResults, delCount]
  | cons p rest ih =>
    intro r a
    obtain ⟨aid, res'⟩ := p
    rw [processResults_cons]
    rcases hc : consumePending aid r.pending with ⟨o, rest2⟩
    cases o with
    | none =>
      rw [handleResult_miss r aid res' rest2 hc]
      simp only [List.nil_append]
      exact ih r a
    | some e =>
      have hfst : (handleResult r aid res').1 = { r with pending := rest2 } := by
        rw [handleResult_found r aid res' e rest2 hc]
      have hsnd : (handleResult r aid res').2 = [Effect.deliverResult e.ctrl aid res'] := by
        rw [handleResult_found r aid res' e rest2 hc]
      rw [hfst, hsnd]
      unfold delCount
      rw [List.countP_append]
      have htail : delCount a (processResults { r with pending := rest2 } rest).2 ≤
          List.countP (fun x => x.aid == a) rest2 := by
        simpa using ih { r with pending := rest2 } a
      unfold delCount at htail
      by_cases ha : aid = a
      · subst ha
        have hcnt := consumePending_countP aid r.pending e rest2 hc
        have hsing : List.countP (fun eff =>
            match eff with
            | Effect.deliverResult _ a' _ => a' == aid
            | _ => false) [Effect.deliverResult e.ctrl aid res'] = 1 := by simp
        rw [hsing]
        omega
      · have hsing : List.countP (fun eff =>
            match eff with
            | Effect.deliverResult _ a' _ => a' == a
            | _ => false) [Effect.deliverResult e.ctrl aid res'] = 0 := by
          simp [ha]
        have hsub : List.countP (fun x => x.aid == a) rest2 ≤
            List.countP (fun x => x.aid == a) r.pending := by
          have hs := consumePending_sublist aid r.pending
          rw [hc] at hs
          exact hs.countP_le _
        rw [hsing]
        omega

/-- C1: spec-modelled — over any wire-interleaved sequence of results, every
delivered `ActionResult` reaches exactly the controller whose pending
entry carries its correlation id; with distinct outstanding ids no id is
delivered more than once (duplicates of a consumed id are dropped); result
processing emits only deliveries, never errors; and a result whose id
matches no outstanding request leaves the Router unchanged and produces no
effect at all. -/
theorem router_result_correlation (r : RouterState) (rs : List (Nat × ActionRes))
    (hnd : (r.pending.map PendingEntry.aid).Nodup) :
    (∀ c a res, Effect.deliverResult c a res ∈ (processResults r rs).2 →
      ∃ e, e ∈ r.pending ∧ e.aid = a ∧ e.ctrl = c)
  ∧ (∀ a, delCount a (processResults r rs).2 ≤ 1)
  ∧ (∀ eff ∈ (processResults r rs).2, ∃ c a res, eff = Effect.deliverResult c a res)
  ∧ (∀ aid res, (∀ e ∈ r.pending, e.aid ≠ aid) → handleResult r aid res = (r, [])) :=
  ⟨fun c a res h => processResults_deliver_sound rs r c a res h,
   fun a => le_trans (processResults_delCount rs r a) (nodup_countP_le_one a r.pending hnd),
   fun eff h => processResults_effects_shape rs r eff h,
   fun aid res hall =>
     handleResult_miss r aid res r.pending (consumePending_not_found aid r.pending hall)⟩

/-- Closed witness for C1 at the two-identity Router and the interleaved
result sequence with a duplicate and an unknown id. -/
theorem router_result_correlation_witness :
    (∃ e, e ∈ demoRouter.pending ∧ e.aid = 2 ∧ e.ctrl = 20)
  ∧ delCount 2 (processResults demoRouter demoResults).2 ≤ 1
  ∧ handleResult demoRouter 99 ⟨true, "stray", 43⟩ = (demoRouter, []) :=
  ⟨(router_result_correlation demoRouter demoResults (by decide)).1 20 2
      ⟨true, "ok", 40⟩ (by decide),
   (router_result_correlation demoRouter demoResults (by decide)).2.1 2,
   (router_result_correlation demoRouter demoResults (by decide)).2.2.2 99
      ⟨true, "stray", 43⟩ (by decide)⟩

/-- Helper: removing the entries of one key leaves the entries of every
other key intact. -/
theorem filter_commute_ne {α : Type} (f : α → String) (ident j : String) (hj : j ≠ ident) :
    ∀ l : List α, (l.filter (fun x => f x != ident)).filter (fun x => f x == j) =
      l.filter (fun x => f x == j) := by
  intro l
  induction l with
  | nil => rfl
  | cons a t ih =>
    by_cases hne : f a = ident
    · have h1 : (f a != ident) = false := by simp [hne]
      have h2 : (f a == j) = false := by
        rw [hne]
        simp [Ne.symm hj]
      simp [List.filter_cons, h1, h2, ih]
    · have h1 : (f a != ident) = true := by simp [hne]
      simp [List.filter_cons, h1, ih]

/-- Helper: removing the entries of one key does not change the first entry
found for any other key. -/
theorem find_filter_ne {α : Type} (f : α → String) (ident j : String) (hj : j ≠ ident) :
    ∀ l : List α, (l.filter (fun x => f x != ident)).find? (fun x => f x == j) =
      l.find? (fun x => f x == j) := by
  intro l
  induction l with
  | nil => rfl
  | cons a t ih =>
    by_cases hne : f a = ident
    · have h1 : (f a != ident) = false := by simp [hne]
      have h2 : (f a == j) = false := by
        rw [hne]
        simp [Ne.symm hj]
      simp [List.filter_cons, List.find?_cons, h1, h2, ih]
    · have h1 : (f a != ident) = true := by simp [hne]
      by_cases haj : f a = j
      · have h2 : (f a == j) = true := by simp [haj]
        simp [List.filter_cons, List.find?_cons, h1, h2]
      · have h2 : (f a == j) = false := by simp [haj]
        simp [List.filter_cons, List.find?_cons, h1, h2, ih]

/-- C5: spec-modelled — disconnecting one identity's Peer Bridge fails every
pending action of that identity with `NOT_CONNECTED`, aborts every pending
Waiter of that identity with `NOT_CONNECTED`, marks the identity offline,
notifies each of its subscribers of the offline transition, and leaves the
pending actions, Waiters, peer binding, subscribers, and cached session of
every other identity unchanged. -/
theorem disconnect_isolates_identity (r : RouterState) (ident : String) :
    (∀ e ∈ r.pending, e.ident = ident →
      Effect.failPending e.ctrl e.aid ErrCode.NOT_CONNECTED ∈ (handleDisconnect r ident).2)
  ∧ (∀ w ∈ r.waiters, w.1 = ident →
      Effect.failWaiter w.2 ErrCode.NOT_CONNECTED ∈ (handleDisconnect r ident).2)
  ∧ peerOf (handleDisconnect r ident).1 ident = none
  ∧ (∀ c ∈ subsOf r ident, Effect.notifyOffline c ident ∈ (handleDisconnect r ident).2)
  ∧ (∀ j, j ≠ ident →
      pendingOf (handleDisconnect r ident).1 j = pendingOf r j ∧
      waitersOf (handleDisconnect r ident).1 j = waitersOf r j ∧
      peerOf (handleDisconnect r ident).1 j = peerOf r j ∧
      subsOf (handleDisconnect r ident).1 j = subsOf r j ∧
      cachedOf (handleDisconnect r ident).1 j = cachedOf r j) := by
  refine ⟨?_, ?_, ?_, ?_, ?_⟩
  · intro e he heq
    apply List.mem_append_left
    apply List.mem_append_left
    exact List.mem_map_of_mem _ (List.mem_filter.mpr ⟨he, by simp [heq]⟩)
  · intro w hw heq
    apply List.mem_append_left
    apply List.mem_append_right
    exact List.mem_map_of_mem _ (List.mem_filter.mpr ⟨hw, by simp [heq]⟩)
  · have hfind : ((handleDisconnect r ident).1.peers).find? (fun p => p.1 == ident) = none := by
      apply List.find?_eq_none.mpr
      intro x hx
      have hxne := List.of_mem_filter hx
      simp only [bne_iff_ne, ne_eq] at hxne
      simp [hxne]
    unfold peerOf
    rw [hfind]
    rfl
  · intro c hc
    apply List.mem_append_right
    exact List.mem_map_of_mem _ hc
  · intro j hj
    refine ⟨?_, ?_, ?_, rfl, rfl⟩
    · exact filter_commute_ne (fun e => e.ident) ident j hj r.pending
    · exact filter_commute_ne (fun w => w.1) ident j hj r.waiters
    · exact congrArg (Option.map Prod.snd) (find_filter_ne (fun p => p.1) ident j hj r.peers)

/-- Closed witness for C5 at the two-identity Router, disconnecting
"alpha": alpha's pending action and Waiter fail, alpha is offline, alpha's
subscriber is notified, and beta's tables are untouched. -/
theorem disconnect_isolates_identity_witness :
    Effect.failPending 10 1 ErrCode.NOT_CONNECTED ∈ (handleDisconnect demoRouter "alpha").2
  ∧ Effect.failWaiter 71 ErrCode.NOT_CONNECTED ∈ (handleDisconnect demoRouter "alpha").2
  ∧ peerOf (handleDisconnect demoRouter "alpha").1 "alpha" = none
  ∧ Effect.notifyOffline 10 "alpha" ∈ (handleDisconnect demoRouter "alpha").2
  ∧ (pendingOf (handleDisconnect demoRouter "alpha").1 "beta" = pendingOf demoRouter "beta" ∧
     waitersOf (handleDisconnect demoRouter "alpha").1 "beta" = waitersOf demoRouter "beta" ∧
     peerOf (handleDisconnect demoRouter "alpha").1 "beta" = peerOf demoRouter "beta" ∧
     subsOf (handleDisconnect demoRouter "alpha").1 "beta" = subsOf demoRouter "beta" ∧
     cachedOf (handleDisconnect demoRouter "alpha").1 "beta" = cachedOf demoRouter "beta") :=
  ⟨(disconnect_isolates_identity demoRouter "alpha").1 ⟨1, "alpha", 10⟩ (by decide) (by decide),
   (disconnect_isolates_identity demoRouter "alpha").2.1 ("alpha", 71) (by decide) (by decide),
   (disconnect_isolates_identity demoRouter "alpha").2.2.1,
   (disconnect_isolates_identity demoRouter "alpha").2.2.2.1 10 (by decide),
   (disconnect_isolates_identity demoRouter "alpha").2.2.2.2 "beta" (by decide)⟩

/-- C6: spec-modelled — a frame that fails wire validation is logged and
dropped: the Router emits only a log effect attributed to the originating
connection, the routing tables are bit-for-bit unchanged, and every
identity's pending actions, Waiters, peer binding, subscribers, and cached
session are exactly as before the bad message. -/
theorem malformed_message_dropped (r : RouterState) (conn : Nat) (f : Frame)
    (h : parseWire f = none) :
    handleFrame r conn f = (r, [Effect.logDrop conn])
  ∧ (∀ j, pendingOf (handleFrame r conn f).1 j = pendingOf r j ∧
      waitersOf (handleFrame r conn f).1 j = waitersOf r j ∧
      peerOf (handleFrame r conn f).1 j = peerOf r j ∧
      subsOf (handleFrame r conn f).1 j = subsOf r j ∧
      cachedOf (handleFrame r conn f).1 j = cachedOf r j) := by
  have h1 : handleFrame r conn f = (r, [Effect.logDrop conn]) := by
    unfold handleFrame
    rw [h]
  refine ⟨h1, fun j => ?_⟩
  rw [h1]
  exact ⟨rfl, rfl, rfl, rfl, rfl⟩

/-- Closed witness for C6: the junk frame against the two-identity Router. -/
theorem malformed_message_dropped_witness :
    handleFrame demoRouter 5 badFrame = (demoRouter, [Effect.logDrop 5])
  ∧ cachedOf (handleFrame demoRouter 5 badFrame).1 "beta" = cachedOf demoRouter "beta"
  ∧ pendingOf (handleFrame demoRouter 5 badFrame).1 "alpha" = pendingOf demoRouter "alpha" :=
  ⟨(malformed_message_dropped demoRouter 5 badFrame (by decide)).1,
   ((malformed_message_dropped demoRouter 5 badFrame (by decide)).2 "beta").2.2.2.2,
   ((malformed_message_dropped demoRouter 5 badFrame (by decide)).2 "alpha").1⟩

/-- C7: spec-modelled — when a run's last progress signal is `lastSignal`
and no further signal arrives, the watchdog's first poll past the stall
deadline is a scheduled poll time, lies strictly past the deadline but at
most one evaluation interval after it, raises `STALL` there, and no poll
at or before the deadline raises anything. -/
theorem watchdog_stall_within_interval (start interval stallTimeout lastSignal : Nat)
    (hI : 0 < interval) (hs : start ≤ lastSignal + stallTimeout) :
    (∃ k, firstCheckPast start interval (lastSignal + stallTimeout) = start + interval * k)
  ∧ lastSignal + stallTimeout < firstCheckPast start interval (lastSignal + stallTimeout)
  ∧ firstCheckPast start interval (lastSignal + stallTimeout) ≤
      lastSignal + stallTimeout + interval
  ∧ watchdogStallCheck stallTimeout lastSignal
      (firstCheckPast start interval (lastSignal + stallTimeout)) = some ErrCode.STALL
  ∧ (∀ k, start + interval * k ≤ lastSignal + stallTimeout →
      watchdogStallCheck stallTimeout lastSignal (start + interval * k) = none) := by
  have hnotlt : ¬ lastSignal + stallTimeout < start := not_lt.mpr hs
  have hfc : firstCheckPast start interval (lastSignal + stallTimeout) =
      start + interval * ((lastSignal + stallTimeout - start) / interval + 1) := by
    unfold firstCheckPast
    rw [if_neg hnotlt]
  have hdm : interval * ((lastSignal + stallTimeout - start) / interval) +
      (lastSignal + stallTimeout - start) % interval =
      lastSignal + stallTimeout - start := Nat.div_add_mod _ _
  have hmlt : (lastSignal + stallTimeout - start) % interval < interval := Nat.mod_lt _ hI
  have hexp : interval * ((lastSignal + stallTimeout - start) / interval + 1) =
      interval * ((lastSignal + stallTimeout - start) / interval) + interval := by ring
  have hlt : lastSignal + stallTimeout <
      firstCheckPast start interval (lastSignal + stallTimeout) := by
    rw [hfc, hexp]
    omega
  refine ⟨⟨(lastSignal + stallTimeout - start) / interval + 1, hfc⟩, hlt, ?_, ?_, ?_⟩
  · rw [hfc, hexp]
    omega
  · unfold watchdogStallCheck
    rw [if_pos hlt]
  · intro k hk
    unfold watchdogStallCheck
    rw [if_neg (not_lt.mpr hk)]

/-- Closed witness for C7: polls every 500 starting at 0, a 30000 stall
timeout, last signal at 1000 — the stall fires at poll 31500, within one
interval of the 31000 deadline. -/
theorem watchdog_stall_within_interval_witness :
    (∃ k, firstCheckPast 0 500 (1000 + 30000) = 0 + 500 * k)
  ∧ 1000 + 30000 < firstCheckPast 0 500 (1000 + 30000)
  ∧ firstCheckPast 0 500 (1000 + 30000) ≤ 1000 + 30000 + 500
  ∧ watchdogStallCheck 30000 1000 (firstCheckPast 0 500 (1000 + 30000)) = some ErrCode.STALL
  ∧ (∀ k, 0 + 500 * k ≤ 1000 + 30000 →
      watchdogStallCheck 30000 1000 (0 + 500 * k) = none) :=
  watchdog_stall_within_interval 0 500 30000 1000 (by decide) (by decide)
